import Mathlib

/-!
Verification of the crop-geometry decision engine and media-pipeline helpers of
the `oriane` extraction pipeline (C++ sources under
`ExtractionPipeline-lab/core/cpp/`).

The C++ code is shallowly embedded as follows.

* C++ `int` values are modelled as `Int`; the C++ `%` operator is `Int.tmod`
  (truncated remainder) and comparisons are the usual order on `Int`.
* C++ `double` arithmetic on configuration ratios (`MIN_CROP_RATIO = 0.10`,
  the `0.05` sliver bound) is modelled as exact rational arithmetic on `ℚ`:
  the operands are small integers and decimal constants whose comparisons with
  integer pixel dimensions coincide with the exact rational comparisons.
* `AV_NOPTS_VALUE` (the missing-timestamp sentinel) is modelled as
  `Option.none`; a defined timestamp `t` is `some t`.
* External collaborators (ffprobe metadata queries, the ffmpeg cropdetect
  probes, the OpenCV contour bounding box, the exit status of the spawned
  crop command) are inputs to the embedded functions: each embedded function
  takes the collaborator's reply as an argument and computes exactly what the
  C++ code computes from that reply.
* Image pixels (`cv::Vec3b`) are triples of natural numbers; `cv::mean`
  followed by `static_cast<int>` is natural-number (floor) division, which
  agrees with C++ truncation on these non-negative values.  OpenCV bounding
  boxes carry non-negative pixel coordinates, so they are modelled with `Nat`
  components.
-/

namespace Oriane

/-- `CropRect` from `crop_n_frame.cpp` (lines 58-61): `{int x, y, w, h; bool valid}`. -/
structure CropRect where
  x : Int
  y : Int
  w : Int
  h : Int
  valid : Bool
deriving DecidableEq, Repr

/-- `TOLERANCE = 5` (`crop_n_frame.cpp` line 36). -/
def TOLERANCE : Int := 5

/-- `MIN_CROP_RATIO = 0.10` (`crop_n_frame.cpp` line 38), as an exact rational. -/
def MIN_CROP_RATIO : ℚ := 10 / 100

/-- `SAFE_MARGIN_PX = 4` (`crop_n_frame.cpp` line 42). -/
def SAFE_MARGIN_PX : Int := 4

/-- `MIN_FRAMES = 4` (`crop_n_frame.cpp` line 45). -/
def MIN_FRAMES : Int := 4

/-- The accepted input extensions of `phase1_crop` (`crop_n_frame.cpp` line 628). -/
def VIDEO_EXTS : List String := [".mp4", ".mkv", ".mov", ".avi", ".webm"]

/-- A file name split into stem and extension, as used by
`std::filesystem::path::stem`/`extension`.  `handle_video_phase1` writes its
output to `CROPPED_DIR / src_path.filename()`, i.e. it keeps both fields. -/
structure FileName where
  stem : String
  ext : String
deriving DecidableEq, Repr

/-! ## Multi-probe union aggregation (`detect_crop_ffmpeg`, lines 178-201)

Each probe's last `crop=W:H:X:Y` log line is parsed into a `CropRect` with
non-negative components (the regex only matches digit strings).  The
aggregation below is the code after the probe loop, with the safety margin as
a parameter (the source uses the constant `SAFE_MARGIN_PX`).  Note the code
first computes `final_w`/`final_h` one way and immediately overwrites both
(lines 193-198); only the final assignments are modelled. -/

/-- The union/margin aggregation over the probe rectangles
(`crop_n_frame.cpp` lines 178-201).  Returns the invalid rectangle when no
probe produced a rectangle. -/
def aggregate_probe_rects (margin : Int) (rects : List CropRect) : CropRect :=
  match rects with
  | [] => ⟨0, 0, 0, 0, false⟩
  | r0 :: rest =>
      let min_x := rest.foldl (fun a r => min a r.x) r0.x
      let min_y := rest.foldl (fun a r => min a r.y) r0.y
      let max_x_plus_w := rest.foldl (fun a r => max a (r.x + r.w)) (r0.x + r0.w)
      let max_y_plus_h := rest.foldl (fun a r => max a (r.y + r.h)) (r0.y + r0.h)
      let final_x := max 0 (min_x - margin)
      let final_y := max 0 (min_y - margin)
      let final_w := (max_x_plus_w + margin) - max 0 (min_x - margin)
      let final_h := (max_y_plus_h + margin) - max 0 (min_y - margin)
      ⟨final_x, final_y, final_w, final_h, true⟩

/-- `detect_crop_ffmpeg` (lines 129-202) as a function of its external inputs:
the parsed duration (`0` when ffprobe gave nothing parseable) and the list of
per-probe rectangles.  When the duration is zero the function returns invalid
before probing. -/
def detect_crop_ffmpeg_model (duration : ℚ) (rects : List CropRect) : CropRect :=
  if duration = 0 then ⟨0, 0, 0, 0, false⟩
  else aggregate_probe_rects SAFE_MARGIN_PX rects

/-- Spec-side notion (for the refinement claim C2), following the spec's words:
the union bounding box of the probe rectangles, `min x` / `min y` for the
top-left corner and `max (x+w)` / `max (y+h)` for the bottom-right, as the
four edges `(left, top, right, bottom)`; `none` when there are no rectangles. -/
def specUnionEdges (rects : List CropRect) : Option (Int × Int × Int × Int) :=
  match (rects.map (fun r => r.x)).min?, (rects.map (fun r => r.y)).min?,
        (rects.map (fun r => r.x + r.w)).max?, (rects.map (fun r => r.y + r.h)).max? with
  | some l, some t, some r, some b => some (l, t, r, b)
  | _, _, _, _ => none

/-- Spec-side notion (for the refinement claim C2): expand a box given by its
edges outward by `m` on all sides, clamping the top-left corner to
non-negative coordinates, and return it as an x/y/width/height rectangle. -/
def expandClamp (m : Int) (e : Int × Int × Int × Int) : CropRect :=
  ⟨max 0 (e.1 - m), max 0 (e.2.1 - m),
   (e.2.2.1 + m) - max 0 (e.1 - m), (e.2.2.2 + m) - max 0 (e.2.1 - m), true⟩

/-! ## Gradient fallback (`detect_gradient`, lines 206-286)

Only the final rescaling step is geometric: the largest-contour bounding box
(from the opaque vision library, non-negative pixel coordinates) is scaled
back by `s = 1.0 / DOWNSCALE = 2.0`; `static_cast<int>(v * 2.0)` is exactly
`2 * v` for these magnitudes.  `none` models the `return {0,0,0,0,false}`
paths (no decodable frame / no contour). -/

/-- `detect_gradient` as a function of the vision library's best bounding box. -/
def detect_gradient_model (bbox : Option (Nat × Nat × Nat × Nat)) : CropRect :=
  match bbox with
  | none => ⟨0, 0, 0, 0, false⟩
  | some b => ⟨2 * (b.1 : Int), 2 * (b.2.1 : Int), 2 * (b.2.2.1 : Int), 2 * (b.2.2.2 : Int), true⟩

/-! ## Goodness test (`is_good_crop`, lines 289-294) -/

/-- `significant_crop` condition of `is_good_crop` (line 291):
`rect.w < ow * (1.0 - MIN_CROP_RATIO) || rect.h < oh * (1.0 - MIN_CROP_RATIO)`. -/
def significant_crop (rect : CropRect) (ow oh : Int) : Bool :=
  decide ((rect.w : ℚ) < (ow : ℚ) * (1 - MIN_CROP_RATIO)) ||
  decide ((rect.h : ℚ) < (oh : ℚ) * (1 - MIN_CROP_RATIO))

/-- `sensible_size` condition of `is_good_crop` (line 292):
`rect.w > 0.05 * ow && rect.h > 0.05 * oh`. -/
def sensible_size (rect : CropRect) (ow oh : Int) : Bool :=
  decide ((rect.w : ℚ) > (5 / 100 : ℚ) * (ow : ℚ)) &&
  decide ((rect.h : ℚ) > (5 / 100 : ℚ) * (oh : ℚ))

/-- `is_good_crop` (`crop_n_frame.cpp` lines 289-294). -/
def is_good_crop (rect : CropRect) (ow oh : Int) : Bool :=
  if !rect.valid || decide (rect.w ≤ 0) || decide (rect.h ≤ 0) then false
  else significant_crop rect ow oh && sensible_size rect ow oh

/-! ## GPU crop command construction (`crop_gpu`, lines 297-351) -/

/-- `make_even` (`crop_n_frame.cpp` lines 111-113): round an odd `int` up to
the next even value; C++ `%` is truncated remainder. -/
def make_even (x : Int) : Int :=
  if x.tmod 2 = 0 then x else x + 1

/-- The crop geometry placed in the ffmpeg command by `crop_gpu`, by branch:
`cudaFilter` is the `crop_cuda=w:h:x:y` filter (lines 332-334), `cuvidCrop` is
the decoder-side `-crop top x bottom x left x right` option (lines 317-323),
`cpuFilter` is the software `crop=w:h:x:y` filter (lines 337-339). -/
inductive CropCmd where
  | cudaFilter (w h x y : Int)
  | cuvidCrop (top bottom left right : Int)
  | cpuFilter (w h x y : Int)
deriving DecidableEq, Repr

/-- The crop geometry `crop_gpu` puts in its command, as a function of the
`HAS_CROP_CUDA` capability flag and the (optional) hardware decoder mapped
from the probed codec name (`DECODER_MAP`, lines 116-119). -/
def crop_gpu_cmd (hasCropCuda : Bool) (cuvid : Option String) (rect : CropRect)
    (ow oh : Int) : CropCmd :=
  let crop_w := make_even rect.w
  let crop_h := make_even rect.h
  if hasCropCuda then CropCmd.cudaFilter crop_w crop_h rect.x rect.y
  else
    match cuvid with
    | some _ =>
        let top := rect.y
        let bottom := oh - (rect.y + rect.h)
        let left := rect.x
        let right := ow - (rect.x + rect.w)
        CropCmd.cuvidCrop top bottom left right
    | none => CropCmd.cpuFilter crop_w crop_h rect.x rect.y

/-- The output width/height implied by a crop command on an `ow × oh` source:
the filter forms carry them directly; the decoder-side `-crop` option removes
the given pixel counts from each edge (ffmpeg `-crop` semantics). -/
def cmdCropDims (ow oh : Int) : CropCmd → Int × Int
  | CropCmd.cudaFilter w h _ _ => (w, h)
  | CropCmd.cuvidCrop top bottom left right => (ow - left - right, oh - top - bottom)
  | CropCmd.cpuFilter w h _ _ => (w, h)

/-! ## Phase-1 handler (`handle_video_phase1`, lines 355-411)

The handler's external inputs are the probed dimensions (`none` when ffprobe
returned nothing parseable or `std::stoi` threw), the two detector results and
whether the spawned crop command exited zero (`crop_gpu` throws exactly when
the exit status is nonzero, line 348).  The result records the status string,
the file written to the intermediate directory (destination name =
`src_path.filename()`, line 376) and the rectangle handed to `crop_gpu`. -/

/-- Whether the intermediate file holds the cropped transcode or a verbatim
copy of the original. -/
inductive OutKind where
  | cropped
  | copied
deriving DecidableEq, Repr

/-- The observable outcome of `handle_video_phase1` for one video. -/
structure Phase1Result where
  status : String
  output : Option (FileName × OutKind)
  applied : Option CropRect
deriving DecidableEq, Repr

/-- `handle_video_phase1` (`crop_n_frame.cpp` lines 355-411). -/
def handle_video_phase1 (srcName : FileName) (dims : Option (Int × Int))
    (ffRect gradRect : CropRect) (cropOk : Bool) : Phase1Result :=
  match dims with
  | none => ⟨"error_dimensions", none, none⟩
  | some (ow, oh) =>
      let sel :=
        if is_good_crop ffRect ow oh then (ffRect, "ffmpeg")
        else if is_good_crop gradRect ow oh then (gradRect, "gradient")
        else (ffRect, "ffmpeg")
      if sel.1.valid && is_good_crop sel.1 ow oh then
        if cropOk then ⟨"crop[" ++ sel.2 ++ "]", some (srcName, OutKind.cropped), some sel.1⟩
        else ⟨"copy_after_error", some (srcName, OutKind.copied), some sel.1⟩
      else ⟨"copy", some (srcName, OutKind.copied), none⟩

/-! ## Presentation-timestamp correction (`crop/main.cpp`)

The main decode loop (lines 675-686) and the decoder-flush loop (lines
759-766) adjust each decoded frame's `pts` before the frame enters the filter
graph, threading `last_input_pts` (initially `AV_NOPTS_VALUE`, i.e. `none`). -/

/-- One main-decode-loop step (`crop/main.cpp` lines 675-686): substitute
`pkt_dts` for a missing `pts`; if the result is defined and not greater than
`last_input_pts`, rewrite it to `last_input_pts + 1`; update `last_input_pts`
only when the result is defined.  Returns `(raised pts, new last_input_pts)`. -/
def fixFramePts (last pts pktDts : Option Int) : Option Int × Option Int :=
  let pts1 := match pts with
    | none => pktDts
    | some v => some v
  match pts1, last with
  | some v, some l => if v ≤ l then (some (l + 1), some (l + 1)) else (some v, some v)
  | some v, none => (some v, some v)
  | none, _ => (none, last)

/-- The per-frame `(pts, pkt_dts)` inputs of a whole decode run, mapped to the
sequence of `pts` values leaving the decode stage. -/
def fixPtsList (last : Option Int) : List (Option Int × Option Int) → List (Option Int)
  | [] => []
  | f :: rest =>
      let r := fixFramePts last f.1 f.2
      r.1 :: fixPtsList r.2 rest

/-- One decoder-flush-loop step (`crop/main.cpp` lines 759-766): only a frame
with missing `pts` is rewritten, to `last_input_pts + 1`, and only when
`last_input_pts` is defined; a defined `pts` passes through unchanged and
leaves `last_input_pts` untouched. -/
def fixFlushPts (last pts : Option Int) : Option Int × Option Int :=
  match pts, last with
  | none, some l => (some (l + 1), some (l + 1))
  | _, _ => (pts, last)

/-! ## Per-image border trim (`detect_image_crop_cv`, lines 416-464) -/

/-- A `cv::Vec3b` pixel: three channel values. -/
abbrev Pixel := Nat × Nat × Nat

/-- The per-channel mean of a line of pixels, truncated to an integer:
`cv::mean` followed by `static_cast<int>` (lines 442-447); floor division
agrees with C++ truncation on these non-negative values. -/
def lineMean (line : List Pixel) : Nat × Nat × Nat :=
  ((line.map (fun p => p.1)).sum / line.length,
   (line.map (fun p => p.2.1)).sum / line.length,
   (line.map (fun p => p.2.2)).sum / line.length)

/-- The summed absolute channel deviation of a pixel from a (truncated) mean
colour: `diff_sum` of lines 445-447. -/
def pixDev (m : Nat × Nat × Nat) (p : Pixel) : Int :=
  |(p.1 : Int) - (m.1 : Int)| + |(p.2.1 : Int) - (m.2.1 : Int)| + |(p.2.2 : Int) - (m.2.2 : Int)|

/-- The `is_blank_line` lambda of `detect_image_crop_cv` (lines 421-453): an
empty line is blank; otherwise the line is blank iff no pixel's summed channel
deviation from the line's mean exceeds `tol * 3`. -/
def is_blank_line (tol : Int) (line : List Pixel) : Bool :=
  if line.isEmpty then true
  else
    let m := lineMean line
    line.all fun p => decide (pixDev m p ≤ tol * 3)

/-- Spec-side notion (for the refinement claim C6), following the spec's
words: a line is blank when every pixel's channel-wise deviation from the
line's mean colour is within the tolerance, per channel. -/
def blankLinePerChannel (tol : Int) (line : List Pixel) : Prop :=
  ∀ p ∈ line,
    |(p.1 : Int) - ((lineMean line).1 : Int)| ≤ tol ∧
    |(p.2.1 : Int) - ((lineMean line).2.1 : Int)| ≤ tol ∧
    |(p.2.2 : Int) - ((lineMean line).2.2 : Int)| ≤ tol

/-- An in-memory image (`cv::Mat`): `h` rows by `w` columns of pixels. -/
structure Image where
  h : Nat
  w : Nat
  pix : Nat → Nat → Pixel

/-- `img.col(x)`: the column of pixels at abscissa `x`. -/
def colOf (img : Image) (x : Nat) : List Pixel :=
  (List.range img.h).map fun y => img.pix y x

/-- `img.row(y)`: the row of pixels at ordinate `y`. -/
def rowOf (img : Image) (y : Nat) : List Pixel :=
  (List.range img.w).map fun x => img.pix y x

/-- The scan `for (x = 0; x < w; ++x) if (!blank(col x)) { x0 = x; break; }`
with initial value `x0 = w` (line 455, 457). -/
def firstNonBlankX (tol : Int) (img : Image) : Nat :=
  ((List.range img.w).find? fun x => !is_blank_line tol (colOf img x)).getD img.w

/-- The scan `for (x = w - 1; x >= 0; --x) if (!blank(col x)) { x1 = x; break; }`
with initial value `x1 = 0` (line 455, 458). -/
def lastNonBlankX (tol : Int) (img : Image) : Nat :=
  (((List.range img.w).reverse).find? fun x => !is_blank_line tol (colOf img x)).getD 0

/-- The downward row scan with initial value `y0 = h` (line 455, 459). -/
def firstNonBlankY (tol : Int) (img : Image) : Nat :=
  ((List.range img.h).find? fun y => !is_blank_line tol (rowOf img y)).getD img.h

/-- The upward row scan with initial value `y1 = 0` (line 455, 460). -/
def lastNonBlankY (tol : Int) (img : Image) : Nat :=
  (((List.range img.h).reverse).find? fun y => !is_blank_line tol (rowOf img y)).getD 0

/-- `detect_image_crop_cv` (`crop_n_frame.cpp` lines 416-464), with
`x0 = firstNonBlankX`, `x1 = lastNonBlankX`, `y0 = firstNonBlankY`,
`y1 = lastNonBlankY`: invalid when the image is empty or `x0 ≥ x1 || y0 ≥ y1`,
else the rectangle `(x0, y0, x1 - x0 + 1, y1 - y0 + 1)`. -/
def detect_image_crop_cv (tol : Int) (img : Image) : CropRect :=
  if img.h = 0 ∨ img.w = 0 then ⟨0, 0, 0, 0, false⟩
  else if lastNonBlankX tol img ≤ firstNonBlankX tol img
      ∨ lastNonBlankY tol img ≤ firstNonBlankY tol img then ⟨0, 0, 0, 0, false⟩
  else ⟨(firstNonBlankX tol img : Int), (firstNonBlankY tol img : Int),
        (lastNonBlankX tol img : Int) - (firstNonBlankX tol img : Int) + 1,
        (lastNonBlankY tol img : Int) - (firstNonBlankY tol img : Int) + 1, true⟩

end Oriane
namespace Oriane

/-! ## Helper lemmas -/

/-- Each `fixFramePts` step either emits a defined pts that strictly exceeds
any previous defined pts and becomes the new `last_input_pts`, or emits the
missing sentinel and leaves `last_input_pts` unchanged. -/
theorem fixFramePts_step (last p d : Option Int) :
    (∃ v, fixFramePts last p d = (some v, some v) ∧ ∀ l : Int, last = some l → l < v)
    ∨ fixFramePts last p d = (none, last) := by
  rcases p with _ | v
  · rcases d with _ | v
    · rcases last with _ | l <;> simp [fixFramePts]
    · rcases last with _ | l
      · exact Or.inl ⟨v, rfl, by simp⟩
      · by_cases h : v ≤ l
        · exact Or.inl ⟨l + 1, by simp [fixFramePts, h], by intro l' hl'; simp at hl'; omega⟩
        · exact Or.inl ⟨v, by simp [fixFramePts, h], by intro l' hl'; simp at hl'; omega⟩
  · rcases last with _ | l
    · exact Or.inl ⟨v, rfl, by simp⟩
    · by_cases h : v ≤ l
      · exact Or.inl ⟨l + 1, by simp [fixFramePts, h], by intro l' hl'; simp at hl'; omega⟩
      · exact Or.inl ⟨v, by simp [fixFramePts, h], by intro l' hl'; simp at hl'; omega⟩

/-- The defined pts values emitted by the main decode loop form a strictly
increasing sequence, all above any defined initial `last_input_pts`. -/
theorem fixPtsList_chain (frames : List (Option Int × Option Int)) :
    ∀ last : Option Int,
      List.Chain' (· < ·) ((fixPtsList last frames).filterMap id)
      ∧ (∀ l : Int, last = some l → ∀ x ∈ (fixPtsList last frames).filterMap id, l < x) := by
  induction frames with
  | nil => intro last; simp [fixPtsList]
  | cons f rest ih =>
      intro last
      rcases fixFramePts_step last f.1 f.2 with ⟨v, hv, hlt⟩ | hnone
      · have heq : fixPtsList last (f :: rest) = some v :: fixPtsList (some v) rest := by
          simp [fixPtsList, hv]
        rw [heq]
        have hfm : (some v :: fixPtsList (some v) rest).filterMap id
            = v :: (fixPtsList (some v) rest).filterMap id := by
          simp
        rw [hfm]
        constructor
        · apply List.chain'_cons'.mpr
          refine ⟨fun b hb => ?_, (ih (some v)).1⟩
          exact (ih (some v)).2 v rfl b (List.mem_of_mem_head? hb)
        · intro l hl x hx
          rcases List.mem_cons.mp hx with rfl | hx'
          · exact hlt l hl
          · exact lt_trans (hlt l hl) ((ih (some v)).2 v rfl x hx')
      · have heq : fixPtsList last (f :: rest) = none :: fixPtsList last rest := by
          simp [fixPtsList, hnone]
        rw [heq]
        have hfm : (none :: fixPtsList last rest).filterMap id
            = (fixPtsList last rest).filterMap id := by
          simp
        rw [hfm]
        exact ih last

/-- A fold of `min` over non-negative values starting from a non-negative
value stays non-negative. -/
theorem foldl_min_nonneg (l : List Int) (a : Int) (ha : 0 ≤ a) (h : ∀ x ∈ l, 0 ≤ x) :
    0 ≤ l.foldl min a := by
  induction l generalizing a with
  | nil => exact ha
  | cons b t ih =>
      exact ih (min a b) (le_min ha (h b (by simp))) (fun x hx => h x (by simp [hx]))

/-! ## C1 — presentation-clock correction -/

/-- C1 counterexample: in the main decode loop (`crop/main.cpp` lines
675-686), a frame with missing pts is not rewritten to `previous + 1`: with a
previous pts of `5`, a missing pts takes its packet dts `100` unchanged, and a
frame missing both pts and dts leaves the decode stage still carrying the
missing sentinel. -/
theorem pts_missing_not_rewritten_cex :
    fixPtsList none [(some 5, none), (none, some 100)] = [some 5, some 100]
    ∧ fixPtsList none [(some 5, none), (none, none)] = [some 5, none]
    ∧ some (100 : Int) ≠ some ((5 : Int) + 1) := by decide

/-- C1 (amended): in the main decode loop, a missing pts first takes the
packet dts; after that substitution a defined pts that does not exceed
`last_input_pts` is rewritten to `last_input_pts + 1` and a strictly greater
defined pts is preserved unchanged, so the defined pts values handed on are
strictly increasing; a frame with both pts and dts missing passes through with
the missing sentinel.  In the decoder-flush loop only a missing pts is
rewritten, to `last_input_pts + 1`, and a defined pts passes through. -/
theorem pts_clock_correction (frames : List (Option Int × Option Int)) :
    List.Chain' (· < ·) ((fixPtsList none frames).filterMap id)
    ∧ (∀ l v : Int, ∀ d : Option Int, l < v →
        fixFramePts (some l) (some v) d = (some v, some v))
    ∧ (∀ l v : Int, ∀ d : Option Int, v ≤ l →
        fixFramePts (some l) (some v) d = (some (l + 1), some (l + 1)))
    ∧ (∀ last d : Option Int, fixFramePts last none d = fixFramePts last d d)
    ∧ (∀ last : Option Int, fixFramePts last none none = (none, last))
    ∧ (∀ l : Int, fixFlushPts (some l) none = (some (l + 1), some (l + 1)))
    ∧ (∀ last : Option Int, ∀ v : Int, fixFlushPts last (some v) = (some v, last)) := by
  refine ⟨(fixPtsList_chain frames none).1, ?_, ?_, ?_, ?_, ?_, ?_⟩
  · intro l v d h; simp [fixFramePts, (show ¬ v ≤ l by omega)]
  · intro l v d h; simp [fixFramePts, h]
  · intro last d; rcases d with _ | w <;> rfl
  · intro last; rfl
  · intro l; rfl
  · intro last v; rcases last with _ | l <;> rfl

/-- Witness for C1: the corrected pts sequence of a concrete decode run is
strictly increasing, a strictly greater pts is preserved and a non-increasing
one is bumped to `previous + 1`. -/
theorem pts_clock_correction_witness :
    List.Chain' (· < ·) ((fixPtsList none
        [(some 3, none), (some 3, none), (none, none), (some 10, none)]).filterMap id)
    ∧ fixFramePts (some 3) (some 10) none = (some 10, some 10)
    ∧ fixFramePts (some 3) (some 2) none = (some 4, some 4) :=
  ⟨(pts_clock_correction [(some 3, none), (some 3, none), (none, none), (some 10, none)]).1,
   (pts_clock_correction []).2.1 3 10 none (by decide),
   (pts_clock_correction []).2.2.1 3 2 none (by decide)⟩

/-! ## C2 — multi-probe union and safety margin -/

/-- C2: whenever at least one probe yields a rectangle, `detect_crop_ffmpeg`
returns exactly the union bounding box of all probe rectangles (least x and y,
greatest x+w and y+h) expanded outward by the margin on all sides with the
top-left corner clamped to non-negative coordinates, and with margin `0` it
returns the raw union box exactly. -/
theorem multi_probe_union_margin (m : Int) (r0 : CropRect) (rest : List CropRect)
    (hnn : ∀ r ∈ r0 :: rest, 0 ≤ r.x ∧ 0 ≤ r.y) :
    ∃ e : Int × Int × Int × Int,
      specUnionEdges (r0 :: rest) = some e
      ∧ aggregate_probe_rects m (r0 :: rest) = expandClamp m e
      ∧ aggregate_probe_rects 0 (r0 :: rest)
          = ⟨e.1, e.2.1, e.2.2.1 - e.1, e.2.2.2 - e.2.1, true⟩ := by
  refine ⟨(rest.foldl (fun a r => min a r.x) r0.x,
           rest.foldl (fun a r => min a r.y) r0.y,
           rest.foldl (fun a r => max a (r.x + r.w)) (r0.x + r0.w),
           rest.foldl (fun a r => max a (r.y + r.h)) (r0.y + r0.h)), ?_, ?_, ?_⟩
  · simp [specUnionEdges, List.min?, List.max?, List.foldl_map]
  · rfl
  · have hx : 0 ≤ rest.foldl (fun a r => min a r.x) r0.x := by
      have h := foldl_min_nonneg (rest.map (fun r => r.x)) r0.x (hnn r0 (by simp)).1
        (fun x hxm => by
          obtain ⟨r, hr, rfl⟩ := List.mem_map.mp hxm
          exact (hnn r (by simp [hr])).1)
      rwa [List.foldl_map] at h
    have hy : 0 ≤ rest.foldl (fun a r => min a r.y) r0.y := by
      have h := foldl_min_nonneg (rest.map (fun r => r.y)) r0.y (hnn r0 (by simp)).2
        (fun x hxm => by
          obtain ⟨r, hr, rfl⟩ := List.mem_map.mp hxm
          exact (hnn r (by simp [hr])).2)
      rwa [List.foldl_map] at h
    simp [aggregate_probe_rects, max_eq_right hx, max_eq_right hy]

/-- Witness for C2 on two concrete probe rectangles. -/
theorem multi_probe_union_margin_witness :
    ∃ e : Int × Int × Int × Int,
      specUnionEdges [⟨2, 3, 10, 10, true⟩, ⟨5, 1, 20, 6, true⟩] = some e
      ∧ aggregate_probe_rects 4 [⟨2, 3, 10, 10, true⟩, ⟨5, 1, 20, 6, true⟩] = expandClamp 4 e
      ∧ aggregate_probe_rects 0 [⟨2, 3, 10, 10, true⟩, ⟨5, 1, 20, 6, true⟩]
          = ⟨e.1, e.2.1, e.2.2.1 - e.1, e.2.2.2 - e.2.1, true⟩ :=
  multi_probe_union_margin 4 ⟨2, 3, 10, 10, true⟩ [⟨5, 1, 20, 6, true⟩]
    (by
      intro r hr
      rcases List.mem_cons.mp hr with rfl | hr'
      · exact ⟨by decide, by decide⟩
      · simp only [List.mem_singleton] at hr'
        subst hr'
        exact ⟨by decide, by decide⟩)

end Oriane
namespace Oriane

/-! ## C6 — blank-line test of the per-image border trim -/

/-- C6 counterexample: the code classifies a line as blank by comparing each
pixel's summed channel deviation against `tol * 3`, not each channel against
`tol`: the line `[(0,0,0), (30,0,0)]` has mean `(15,0,0)`, so its first pixel
deviates by `15 > 5` on the first channel, yet `is_blank_line` accepts it
because the summed deviation `15` does not exceed `5 * 3`. -/
theorem blank_line_per_channel_cex :
    is_blank_line 5 [(0, 0, 0), (30, 0, 0)] = true
    ∧ ¬ blankLinePerChannel 5 [(0, 0, 0), (30, 0, 0)] := by
  constructor
  · decide
  · intro h
    have hc := (h (0, 0, 0) (by decide)).1
    revert hc
    decide

/-- C6 (amended): a row or column is classified blank if and only if every
pixel's summed absolute channel deviation from the line's (truncated)
per-channel mean colour is at most three times the tolerance (the per-channel
tolerance aggregated over the three channels); an empty line is blank. -/
theorem is_blank_line_iff_sum_dev (tol : Int) (line : List Pixel) :
    is_blank_line tol line = true
      ↔ ∀ p ∈ line, pixDev (lineMean line) p ≤ 3 * tol := by
  unfold is_blank_line
  by_cases he : line.isEmpty = true
  · rw [if_pos he]
    have heq : line = [] := List.isEmpty_iff.mp he
    subst heq
    simp
  · rw [if_neg he, List.all_eq_true]
    constructor
    · intro h p hp
      have hd := of_decide_eq_true (h p hp)
      omega
    · intro h p hp
      exact decide_eq_true (by have := h p hp; omega)

/-- Witness for C6: the amended equivalence evaluated on a concrete line. -/
theorem is_blank_line_iff_sum_dev_witness :
    is_blank_line 5 [(10, 10, 10), (12, 10, 8)] = true :=
  (is_blank_line_iff_sum_dev 5 [(10, 10, 10), (12, 10, 8)]).mpr (by decide)

/-! ## C7 — one intermediate file per input -/

/-- C7 counterexample: a video whose dimensions cannot be probed produces no
intermediate file at all (status `error_dimensions`), and an accepted `.mkv`
input that is copied keeps its `.mkv` name, so the intermediate is not an
`.mp4` file. -/
theorem phase1_intermediate_cex :
    (handle_video_phase1 ⟨"a", ".mkv"⟩ none ⟨0, 0, 0, 0, false⟩ ⟨0, 0, 0, 0, false⟩ true).output
        = none
    ∧ (handle_video_phase1 ⟨"b", ".mkv"⟩ (some (100, 100))
          ⟨0, 0, 0, 0, false⟩ ⟨0, 0, 0, 0, false⟩ true).output
        = some (⟨"b", ".mkv"⟩, OutKind.copied)
    ∧ ".mkv" ∈ VIDEO_EXTS
    ∧ (⟨"b", ".mkv"⟩ : FileName).ext ≠ ".mp4" :=
  ⟨rfl, rfl, by decide, by decide⟩

/-- C7 (amended): every input video whose dimensions are successfully probed
produces exactly one intermediate file, cropped or copied unmodified, under
the same full filename as the input (stem and original extension, so `.mp4`
only for `.mp4` inputs); a video whose dimensions cannot be determined
(status `error_dimensions`) produces no intermediate file. -/
theorem phase1_one_intermediate (name : FileName) (ow oh : Int) (f g : CropRect) (ok : Bool) :
    ((handle_video_phase1 name (some (ow, oh)) f g ok).output = some (name, OutKind.cropped)
      ∨ (handle_video_phase1 name (some (ow, oh)) f g ok).output = some (name, OutKind.copied))
    ∧ (handle_video_phase1 name none f g ok).output = none := by
  refine ⟨?_, rfl⟩
  cases hf : is_good_crop f ow oh with
  | true =>
      cases hvf : f.valid with
      | true =>
          cases ok with
          | true => left; simp [handle_video_phase1, hf, hvf]
          | false => right; simp [handle_video_phase1, hf, hvf]
      | false => right; simp [handle_video_phase1, hf, hvf]
  | false =>
      cases hg : is_good_crop g ow oh with
      | true =>
          cases hvg : g.valid with
          | true =>
              cases ok with
              | true => left; simp [handle_video_phase1, hf, hg, hvg]
              | false => right; simp [handle_video_phase1, hf, hg, hvg]
          | false => right; simp [handle_video_phase1, hf, hg, hvg]
      | false => right; simp [handle_video_phase1, hf, hg]

/-! ## C8 — even crop dimensions in the encode command -/

/-- C8 counterexample: in the cuvid-decoder path without the `crop_cuda`
filter (`crop_n_frame.cpp` lines 317-323), the command crops by the raw
rectangle edges: a `101`-wide rectangle yields a `101`-wide output even though
`make_even 101 = 102`, so the width used is odd and not the rounded value. -/
theorem crop_cmd_raw_cuvid_cex :
    cmdCropDims 200 100 (crop_gpu_cmd false (some "h264_cuvid") ⟨10, 10, 101, 50, true⟩ 200 100)
        = (101, 50)
    ∧ make_even 101 = 102
    ∧ ((101 : Int) ≠ 102)
    ∧ (101 : Int).tmod 2 ≠ 0 := by decide

/-- C8 (amended): in the `crop_cuda`-filter path and in the CPU-filter path
the crop width and height placed in the command are `make_even` of the
rectangle's width and height, where `make_even` rounds an odd value up to the
next even value (and is the identity on even values); in the
cuvid-decoder-without-`crop_cuda` path the command crops by the raw rectangle
edges, so the implied output dimensions are the unrounded width and height. -/
theorem crop_cmd_geometry (rect : CropRect) (ow oh : Int) (s : String) :
    (∀ cuvid : Option String, crop_gpu_cmd true cuvid rect ow oh
        = CropCmd.cudaFilter (make_even rect.w) (make_even rect.h) rect.x rect.y)
    ∧ crop_gpu_cmd false none rect ow oh
        = CropCmd.cpuFilter (make_even rect.w) (make_even rect.h) rect.x rect.y
    ∧ cmdCropDims ow oh (crop_gpu_cmd false (some s) rect ow oh) = (rect.w, rect.h)
    ∧ (∀ x : Int, (make_even x).tmod 2 = 0 ∧ x ≤ make_even x ∧ make_even x ≤ x + 1
        ∧ (x.tmod 2 = 0 → make_even x = x)) := by
  refine ⟨fun cuvid => rfl, rfl, ?_, ?_⟩
  · show (ow - rect.x - (ow - (rect.x + rect.w)), oh - rect.y - (oh - (rect.y + rect.h)))
        = (rect.w, rect.h)
    rw [Prod.mk.injEq]
    constructor <;> ring
  · intro x
    refine ⟨?_, ?_, ?_, ?_⟩
    · unfold make_even
      split
      · assumption
      · next hx =>
          apply Int.tmod_eq_zero_of_dvd
          rcases Int.even_or_odd x with he | ho
          · exact absurd (Int.tmod_eq_zero_of_dvd he.two_dvd) hx
          · exact (Int.even_add_one.mpr (Int.not_even_iff_odd.mpr ho)).two_dvd
    · unfold make_even; split <;> omega
    · unfold make_even; split <;> omega
    · intro hx; unfold make_even; rw [if_pos hx]

/-- Witness for C8: the cuvid path keeps a raw odd width on a concrete
rectangle, and `make_even` is the identity on a concrete even value. -/
theorem crop_cmd_geometry_witness :
    cmdCropDims 200 100 (crop_gpu_cmd false (some "h264_cuvid") ⟨1, 2, 101, 51, true⟩ 200 100)
        = (101, 51)
    ∧ make_even 4 = 4 :=
  ⟨(crop_cmd_geometry ⟨1, 2, 101, 51, true⟩ 200 100 "h264_cuvid").2.2.1,
   ((crop_cmd_geometry ⟨1, 2, 101, 51, true⟩ 200 100 "h264_cuvid").2.2.2 4).2.2.2 (by decide)⟩

end Oriane
namespace Oriane

/-! ## More helper lemmas -/

/-- A rectangle passing `is_good_crop` is valid and has positive width and
height (first guard of `is_good_crop`). -/
theorem is_good_crop_shape (rect : CropRect) (ow oh : Int)
    (h : is_good_crop rect ow oh = true) :
    rect.valid = true ∧ 0 < rect.w ∧ 0 < rect.h := by
  unfold is_good_crop at h
  split at h
  · cases h
  · next hc =>
      simp only [Bool.or_eq_true, Bool.not_eq_eq_eq_not, Bool.not_true, decide_eq_true_eq,
        not_or] at hc
      push_neg at hc
      refine ⟨?_, by omega, by omega⟩
      have h1 := hc.1.1
      revert h1
      cases rect.valid <;> simp

/-- The rectangle `handle_video_phase1` hands to `crop_gpu` is one of the two
detector results, and it passed `is_good_crop`. -/
theorem handle_applied_cases (name : FileName) (ow oh : Int) (f g : CropRect) (ok : Bool)
    (r : CropRect)
    (h : (handle_video_phase1 name (some (ow, oh)) f g ok).applied = some r) :
    (r = f ∨ r = g) ∧ is_good_crop r ow oh = true := by
  cases hf : is_good_crop f ow oh with
  | true =>
      cases hvf : f.valid with
      | true =>
          cases ok with
          | true =>
              simp [handle_video_phase1, hf, hvf] at h
              subst h; exact ⟨Or.inl rfl, hf⟩
          | false =>
              simp [handle_video_phase1, hf, hvf] at h
              subst h; exact ⟨Or.inl rfl, hf⟩
      | false =>
          exact absurd hvf (by simp [(is_good_crop_shape f ow oh hf).1])
  | false =>
      cases hg : is_good_crop g ow oh with
      | true =>
          cases hvg : g.valid with
          | true =>
              cases ok with
              | true =>
                  simp [handle_video_phase1, hf, hg, hvg] at h
                  subst h; exact ⟨Or.inr rfl, hg⟩
              | false =>
                  simp [handle_video_phase1, hf, hg, hvg] at h
                  subst h; exact ⟨Or.inr rfl, hg⟩
          | false =>
              exact absurd hvg (by simp [(is_good_crop_shape g ow oh hg).1])
      | false =>
          simp [handle_video_phase1, hf, hg] at h

/-- Both coordinates of the ffmpeg multi-probe detector result are
non-negative: the aggregation clamps them with `max 0`. -/
theorem detect_crop_ffmpeg_model_nonneg (duration : ℚ) (rects : List CropRect) :
    0 ≤ (detect_crop_ffmpeg_model duration rects).x
    ∧ 0 ≤ (detect_crop_ffmpeg_model duration rects).y := by
  unfold detect_crop_ffmpeg_model
  split
  · exact ⟨le_refl 0, le_refl 0⟩
  · unfold aggregate_probe_rects
    cases rects with
    | nil => exact ⟨le_refl 0, le_refl 0⟩
    | cons r0 rest => exact ⟨le_max_left 0 _, le_max_left 0 _⟩

/-- Both coordinates of the gradient detector result are non-negative: they
are twice a natural-number bounding-box coordinate. -/
theorem detect_gradient_model_nonneg (bbox : Option (Nat × Nat × Nat × Nat)) :
    0 ≤ (detect_gradient_model bbox).x ∧ 0 ≤ (detect_gradient_model bbox).y := by
  rcases bbox with _ | b
  · exact ⟨le_refl 0, le_refl 0⟩
  · refine ⟨?_, ?_⟩ <;>
      · show (0 : Int) ≤ 2 * _
        positivity

/-! ## C3 — fallback to an unmodified copy -/

/-- C3: when a good rectangle was found but the crop-transcode invocation
exits nonzero, `handle_video_phase1` copies the original unmodified and
returns status `copy_after_error`; when no detected rectangle passes the
goodness test it copies the original unmodified and returns status `copy`;
whenever the dimensions probed, an output file is always produced. -/
theorem phase1_error_and_copy_fallback (name : FileName) (ow oh : Int)
    (f g : CropRect) (ok : Bool) :
    ((is_good_crop f ow oh || is_good_crop g ow oh) = true →
      handle_video_phase1 name (some (ow, oh)) f g false
        = ⟨"copy_after_error", some (name, OutKind.copied),
           some (if is_good_crop f ow oh then f else g)⟩)
    ∧ ((is_good_crop f ow oh || is_good_crop g ow oh) = false →
      handle_video_phase1 name (some (ow, oh)) f g ok
        = ⟨"copy", some (name, OutKind.copied), none⟩)
    ∧ (handle_video_phase1 name (some (ow, oh)) f g ok).output ≠ none := by
  refine ⟨?_, ?_, ?_⟩
  · intro hgood
    cases hf : is_good_crop f ow oh with
    | true =>
        have hvf := (is_good_crop_shape f ow oh hf).1
        simp [handle_video_phase1, hf, hvf]
    | false =>
        have hg : is_good_crop g ow oh = true := by
          rw [hf] at hgood
          simpa using hgood
        have hvg := (is_good_crop_shape g ow oh hg).1
        simp [handle_video_phase1, hf, hg, hvg]
  · intro hbad
    rw [Bool.or_eq_false_iff] at hbad
    simp [handle_video_phase1, hbad.1, hbad.2]
  · cases hf : is_good_crop f ow oh with
    | true =>
        have hvf := (is_good_crop_shape f ow oh hf).1
        cases ok <;> simp [handle_video_phase1, hf, hvf]
    | false =>
        cases hg : is_good_crop g ow oh with
        | true =>
            have hvg := (is_good_crop_shape g ow oh hg).1
            cases ok <;> simp [handle_video_phase1, hf, hg, hvg]
        | false => simp [handle_video_phase1, hf, hg]

/-- Witness for C3: a concrete good rectangle with a failing crop command
yields `copy_after_error` with a copied output file. -/
theorem phase1_error_and_copy_fallback_witness :
    handle_video_phase1 ⟨"c", ".mp4"⟩ (some (100, 100))
        ⟨0, 0, 50, 50, true⟩ ⟨0, 0, 0, 0, false⟩ false
      = ⟨"copy_after_error", some (⟨"c", ".mp4"⟩, OutKind.copied),
         some ⟨0, 0, 50, 50, true⟩⟩ := by
  have hf : is_good_crop ⟨0, 0, 50, 50, true⟩ 100 100 = true := by
    simp [ is_good_crop, significant_crop, sensible_size, MIN_CROP_RATIO]
    norm_num
  have h := (phase1_error_and_copy_fallback ⟨"c", ".mp4"⟩ 100 100
      ⟨0, 0, 50, 50, true⟩ ⟨0, 0, 0, 0, false⟩ false).1 (by rw [hf]; rfl)
  rw [h]
  simp [hf]

/-! ## C4 — goodness-test threshold behaviour -/

/-- C4 counterexample: `is_good_crop` is not false when a dimension equals
exactly `(1 - ratio) * original`: the rectangle `90 × 10` on a `100 × 100`
source has width exactly `100 * (1 - MIN_CROP_RATIO) = 90`, yet the test
accepts it because the height clause of the disjunction fires. -/
theorem good_crop_exact_threshold_cex :
    is_good_crop ⟨0, 0, 90, 10, true⟩ 100 100 = true
    ∧ ((90 : ℚ) = (100 : ℚ) * (1 - MIN_CROP_RATIO)) := by
  constructor
  · simp [ is_good_crop, significant_crop, sensible_size, MIN_CROP_RATIO]
    norm_num
  · norm_num [ MIN_CROP_RATIO]

/-- C4 (amended): shrinking a dimension strictly below
`(1 - ratio) * original` makes the significant-crop predicate true, and the
predicate is monotone under shrinking either dimension; when a dimension
equals exactly `(1 - ratio) * original` that dimension does not fire the
predicate, so `is_good_crop` is false at the exact threshold provided the
other dimension is not itself below its threshold. -/
theorem good_crop_threshold_behaviour (rect : CropRect) (ow oh : Int) :
    ((rect.w : ℚ) < (ow : ℚ) * (1 - MIN_CROP_RATIO) → significant_crop rect ow oh = true)
    ∧ ((rect.h : ℚ) < (oh : ℚ) * (1 - MIN_CROP_RATIO) → significant_crop rect ow oh = true)
    ∧ (∀ w' : Int, w' ≤ rect.w → significant_crop rect ow oh = true →
        significant_crop ⟨rect.x, rect.y, w', rect.h, rect.valid⟩ ow oh = true)
    ∧ (∀ h' : Int, h' ≤ rect.h → significant_crop rect ow oh = true →
        significant_crop ⟨rect.x, rect.y, rect.w, h', rect.valid⟩ ow oh = true)
    ∧ ((rect.w : ℚ) = (ow : ℚ) * (1 - MIN_CROP_RATIO) →
        ¬ ((rect.h : ℚ) < (oh : ℚ) * (1 - MIN_CROP_RATIO)) →
        is_good_crop rect ow oh = false)
    ∧ ((rect.h : ℚ) = (oh : ℚ) * (1 - MIN_CROP_RATIO) →
        ¬ ((rect.w : ℚ) < (ow : ℚ) * (1 - MIN_CROP_RATIO)) →
        is_good_crop rect ow oh = false) := by
  refine ⟨?_, ?_, ?_, ?_, ?_, ?_⟩
  · intro h
    simp only [significant_crop, Bool.or_eq_true, decide_eq_true_eq]
    exact Or.inl h
  · intro h
    simp only [significant_crop, Bool.or_eq_true, decide_eq_true_eq]
    exact Or.inr h
  · intro w' hle hsig
    simp only [significant_crop, Bool.or_eq_true, decide_eq_true_eq] at hsig ⊢
    rcases hsig with hw | hh
    · exact Or.inl (lt_of_le_of_lt (by exact_mod_cast hle) hw)
    · exact Or.inr hh
  · intro h' hle hsig
    simp only [significant_crop, Bool.or_eq_true, decide_eq_true_eq] at hsig ⊢
    rcases hsig with hw | hh
    · exact Or.inl hw
    · exact Or.inr (lt_of_le_of_lt (by exact_mod_cast hle) hh)
  · intro heq hnh
    unfold is_good_crop
    split
    · rfl
    · have hsig : significant_crop rect ow oh = false := by
        simp only [significant_crop, Bool.or_eq_false_iff, decide_eq_false_iff_not]
        exact ⟨by rw [heq]; exact lt_irrefl _, hnh⟩
      rw [hsig, Bool.false_and]
  · intro heq hnw
    unfold is_good_crop
    split
    · rfl
    · have hsig : significant_crop rect ow oh = false := by
        simp only [significant_crop, Bool.or_eq_false_iff, decide_eq_false_iff_not]
        exact ⟨hnw, by rw [heq]; exact lt_irrefl _⟩
      rw [hsig, Bool.false_and]

/-- Witness for C4: a width below the threshold fires the significant-crop
predicate, and a rectangle at exactly the threshold in both dimensions is
rejected. -/
theorem good_crop_threshold_behaviour_witness :
    significant_crop ⟨0, 0, 50, 100, true⟩ 100 100 = true
    ∧ is_good_crop ⟨0, 0, 90, 90, true⟩ 100 100 = false :=
  ⟨(good_crop_threshold_behaviour ⟨0, 0, 50, 100, true⟩ 100 100).1
      (by norm_num [ MIN_CROP_RATIO]),
   (good_crop_threshold_behaviour ⟨0, 0, 90, 90, true⟩ 100 100).2.2.2.2.1
      (by norm_num [ MIN_CROP_RATIO]) (by norm_num [ MIN_CROP_RATIO])⟩

end Oriane
namespace Oriane

/-! ## C9 — no invalid rectangle is ever applied -/

/-- C9: every rectangle `handle_video_phase1` hands to the crop-transcode
step — coming from the ffmpeg multi-probe detector or the gradient fallback —
is valid, has passed `is_good_crop`, and therefore has positive width and
height and non-negative x and y. -/
theorem crop_engine_rect_safe (name : FileName) (ow oh : Int) (duration : ℚ)
    (probeRects : List CropRect) (bbox : Option (Nat × Nat × Nat × Nat)) (cropOk : Bool)
    (r : CropRect)
    (h : (handle_video_phase1 name (some (ow, oh))
            (detect_crop_ffmpeg_model duration probeRects)
            (detect_gradient_model bbox) cropOk).applied = some r) :
    r.valid = true ∧ is_good_crop r ow oh = true
    ∧ 0 < r.w ∧ 0 < r.h ∧ 0 ≤ r.x ∧ 0 ≤ r.y := by
  obtain ⟨hor, hgood⟩ := handle_applied_cases name ow oh
    (detect_crop_ffmpeg_model duration probeRects) (detect_gradient_model bbox) cropOk r h
  obtain ⟨hv, hw, hh⟩ := is_good_crop_shape r ow oh hgood
  refine ⟨hv, hgood, hw, hh, ?_, ?_⟩
  · rcases hor with rfl | rfl
    · exact (detect_crop_ffmpeg_model_nonneg duration probeRects).1
    · exact (detect_gradient_model_nonneg bbox).1
  · rcases hor with rfl | rfl
    · exact (detect_crop_ffmpeg_model_nonneg duration probeRects).2
    · exact (detect_gradient_model_nonneg bbox).2

/-- Witness for C9: a concrete probe rectangle produces the aggregated
rectangle `(6, 6, 58, 58)`, which is applied and satisfies all guarantees. -/
theorem crop_engine_rect_safe_witness :
    (⟨6, 6, 58, 58, true⟩ : CropRect).valid = true
    ∧ is_good_crop ⟨6, 6, 58, 58, true⟩ 100 100 = true
    ∧ 0 < (58 : Int) ∧ 0 < (58 : Int) ∧ 0 ≤ (6 : Int) ∧ 0 ≤ (6 : Int) :=
  crop_engine_rect_safe ⟨"v", ".mp4"⟩ 100 100 1 [⟨10, 10, 50, 50, true⟩] none true
    ⟨6, 6, 58, 58, true⟩
    (by
      have hd : detect_crop_ffmpeg_model 1 [⟨10, 10, 50, 50, true⟩] = ⟨6, 6, 58, 58, true⟩ := by
        unfold detect_crop_ffmpeg_model
        rw [if_neg (by norm_num : ¬ (1 : ℚ) = 0)]
        decide
      have h1 : is_good_crop ⟨6, 6, 58, 58, true⟩ 100 100 = true := by
        simp [ is_good_crop, significant_crop, sensible_size, MIN_CROP_RATIO]
        norm_num
      rw [hd]
      simp [handle_video_phase1, h1])

/-! ## C10 — per-image border trim stays in bounds -/

/-- The backward column scan lands on `0` or strictly inside the image. -/
theorem lastNonBlankX_cases (tol : Int) (img : Image) :
    lastNonBlankX tol img = 0 ∨ lastNonBlankX tol img < img.w := by
  unfold lastNonBlankX
  cases hf : ((List.range img.w).reverse).find? (fun x => !is_blank_line tol (colOf img x)) with
  | none => left; rfl
  | some v =>
      right
      have hv := List.mem_of_find?_eq_some hf
      simp only [Option.getD_some]
      exact List.mem_range.mp (List.mem_reverse.mp hv)

/-- The backward row scan lands on `0` or strictly inside the image. -/
theorem lastNonBlankY_cases (tol : Int) (img : Image) :
    lastNonBlankY tol img = 0 ∨ lastNonBlankY tol img < img.h := by
  unfold lastNonBlankY
  cases hf : ((List.range img.h).reverse).find? (fun y => !is_blank_line tol (rowOf img y)) with
  | none => left; rfl
  | some v =>
      right
      have hv := List.mem_of_find?_eq_some hf
      simp only [Option.getD_some]
      exact List.mem_range.mp (List.mem_reverse.mp hv)

/-- C10: whenever the per-image border trim returns a valid rectangle, that
rectangle lies entirely within the image bounds with width and height at
least 2, so the caller's submatrix extraction is in bounds; and on an image
whose every row and column is blank it returns an invalid rectangle. -/
theorem detect_image_crop_safe (tol : Int) (img : Image) :
    (∀ r : CropRect, detect_image_crop_cv tol img = r → r.valid = true →
      0 ≤ r.x ∧ 0 ≤ r.y ∧ r.x + r.w ≤ (img.w : Int) ∧ r.y + r.h ≤ (img.h : Int)
      ∧ 2 ≤ r.w ∧ 2 ≤ r.h)
    ∧ ((∀ x < img.w, is_blank_line tol (colOf img x) = true) →
       (∀ y < img.h, is_blank_line tol (rowOf img y) = true) →
       (detect_image_crop_cv tol img).valid = false) := by
  constructor
  · intro r hr hv
    unfold detect_image_crop_cv at hr
    split at hr
    · rw [← hr] at hv; cases hv
    · split at hr
      · rw [← hr] at hv; cases hv
      · next hcond =>
          push_neg at hcond
          obtain ⟨hx01, hy01⟩ := hcond
          have hx1 : lastNonBlankX tol img < img.w := by
            rcases lastNonBlankX_cases tol img with h0 | hlt
            · omega
            · exact hlt
          have hy1 : lastNonBlankY tol img < img.h := by
            rcases lastNonBlankY_cases tol img with h0 | hlt
            · omega
            · exact hlt
          rw [← hr]
          refine ⟨?_, ?_, ?_, ?_, ?_, ?_⟩ <;> simp only [] <;> omega
  · intro hcols hrows
    unfold detect_image_crop_cv
    split
    · rfl
    · have hx0 : firstNonBlankX tol img = img.w := by
        unfold firstNonBlankX
        rw [List.find?_eq_none.mpr ?_]
        · rfl
        · intro x hxm
          simp [hcols x (List.mem_range.mp hxm)]
      have hx1 : lastNonBlankX tol img = 0 := by
        unfold lastNonBlankX
        rw [List.find?_eq_none.mpr ?_]
        · rfl
        · intro x hxm
          simp [hcols x (List.mem_range.mp (List.mem_reverse.mp hxm))]
      have hcond : lastNonBlankX tol img ≤ firstNonBlankX tol img
          ∨ lastNonBlankY tol img ≤ firstNonBlankY tol img := by
        left
        rw [hx0, hx1]
        exact Nat.zero_le _
      rw [if_pos hcond]

/-- Witness for C10: on a concrete 4×4 image with a blank one-pixel border
and a non-blank 2×2 centre, the detector returns `(1, 1, 2, 2)`, which
satisfies every bound. -/
theorem detect_image_crop_safe_witness :
    0 ≤ (1 : Int) ∧ 0 ≤ (1 : Int) ∧ (1 : Int) + 2 ≤ (4 : Int) ∧ (1 : Int) + 2 ≤ (4 : Int)
    ∧ 2 ≤ (2 : Int) ∧ 2 ≤ (2 : Int) :=
  (detect_image_crop_safe 5 ⟨4, 4, fun y x =>
      if (y = 1 ∨ y = 2) ∧ (x = 1 ∨ x = 2) then (255, 255, 255) else (0, 0, 0)⟩).1
    ⟨1, 1, 2, 2, true⟩ (by decide) rfl

end Oriane
